import Mathlib

/-!
Verification of the akvorado DDoS detector (ddos_detector.py).

The Python program is shallowly embedded below.  External collaborators
(ClickHouse, the AbuseIPDB HTTP API, webhook transports, the wall clock) are
modelled as explicit inputs: raw query responses are `Except` values (an
`Except.error` models a raised exception caught by the client's try/except
block), the reputation service is a function from an IP address to its raw
response, and the current time is passed as a rational number of seconds.
Floating point values are modelled as rationals where the source only
compares and copies them, and as real numbers where the source computes
logarithms (the entropy computation).  Effects that the claims observe
(whether the per-destination query was issued, which source IPs were sent to
the reputation service, which transport calls were made) are returned
explicitly as part of each function's result.
-/

namespace AkvoradoDDoS

/-- Detection thresholds, from config `detection.thresholds`
(ddos_detector.py lines 51-54). -/
structure Thresholds where
  total_external_bps_threshold : ℚ
  dst_bps_threshold : ℚ
  entropy_threshold : ℚ

/-- One row of `ClickHouseClient.get_dst_traffic_stats` (lines 176-182):
per-destination bit rate, the flow-ordered source address list, the matching
per-source byte list, and the distinct-source count. -/
structure DstStat where
  dst_ip : String
  bps : ℚ
  src_ips : List String
  src_bytes : List ℕ
  unique_sources : ℕ

/-- The fields of the AbuseIPDB response's `data` object that
`AbuseIPDBClient.check_ip` reads (lines 236-246), with the `.get` defaults
already applied. -/
structure IPData where
  ipAddress : String
  abuseConfidenceScore : ℤ
  totalReports : ℤ
  countryCode : String
  usageType : String
  isp : String

/-- The dictionary built by `AbuseIPDBClient.check_ip` (lines 238-246). -/
structure AbuseResult where
  ip_address : String
  abuse_confidence_score : ℤ
  total_reports : ℤ
  is_reported : Bool
  country_code : String
  usage_type : String
  isp : String
deriving DecidableEq

/-- Construction of the result dictionary from the response data
(lines 238-246): `is_reported` is `totalReports > 0`. -/
def mkAbuseResult (d : IPData) : AbuseResult :=
  { ip_address := d.ipAddress
    abuse_confidence_score := d.abuseConfidenceScore
    total_reports := d.totalReports
    is_reported := decide (0 < d.totalReports)
    country_code := d.countryCode
    usage_type := d.usageType
    isp := d.isp }

/-- `AbuseIPDBClient.check_ip` (lines 201-263).  `response` is the raw HTTP
interaction: `Except.error` models a raised exception (network failure or
non-2xx status), `Except.ok none` a JSON body without a `data` key, and
`Except.ok (some d)` a well-formed response.  Disabled client and every
failure path return `none`. -/
def check_ip (enabled : Bool) (response : Except String (Option IPData)) :
    Option AbuseResult :=
  if !enabled then none
  else
    match response with
    | Except.error _ => none
    | Except.ok none => none
    | Except.ok (some d) => some (mkAbuseResult d)

/-- `ClickHouseClient.get_total_external_traffic` (lines 108-139): the raw
query either produces a bit-rate or raises; a raised exception is caught and
turned into `0.0`. -/
def get_total_external_traffic (raw : Except String ℚ) : ℚ :=
  match raw with
  | Except.ok v => v
  | Except.error _ => 0

/-- `ClickHouseClient.get_dst_traffic_stats` (lines 141-188): the raw query
either produces the per-destination rows or raises; a raised exception is
caught and turned into the empty list. -/
def get_dst_traffic_stats (raw : Except String (List DstStat)) : List DstStat :=
  match raw with
  | Except.ok stats => stats
  | Except.error _ => []

/-- One entry of the `attacks` list built by `DDoSDetector.detect_attacks`
(lines 526-534). -/
structure AttackInfo where
  dst_ip : String
  bps : ℚ
  entropy : ℝ
  unique_sources : ℕ
  attack_type : String
  abuse_info : Option AbuseResult
  entropy_triggered : Bool

/-- `DDoSDetector.calculate_normalized_entropy` (lines 409-444), with the
byte counts as naturals and the result as a real number.  The loop
`for bytes_val in src_bytes: if bytes_val > 0: entropy -= p * log2 p`
is written as the sum of the per-element contributions. -/
noncomputable def calculate_normalized_entropy (src_ips : List String)
    (src_bytes : List ℕ) : ℝ :=
  if src_ips.isEmpty || src_bytes.isEmpty then 0
  else
    let total_bytes : ℕ := src_bytes.sum
    if total_bytes = 0 then 0
    else
      let entropy : ℝ :=
        (src_bytes.map (fun bytes_val : ℕ =>
          if 0 < bytes_val then
            -(((bytes_val : ℝ) / (total_bytes : ℝ)) *
              Real.logb 2 ((bytes_val : ℝ) / (total_bytes : ℝ)))
          else 0)).sum
      let n : ℕ := src_ips.length
      if n ≤ 1 then 0
      else
        let max_entropy : ℝ := Real.logb 2 (n : ℝ)
        if 0 < max_entropy then entropy / max_entropy else 0

/-- The inner source loop of `DDoSDetector.detect_attacks` (lines 496-509):
query each source in order until one lookup returns `is_reported`, then
break.  Returns the hit (if any) and the list of addresses that were sent to
the reputation service, in query order. -/
def checkSources (lookup : String → Option AbuseResult) :
    List String → Option AbuseResult × List String
  | [] => (none, [])
  | ip :: rest =>
    match lookup ip with
    | some r =>
      if r.is_reported then (some r, [ip])
      else
        let tail := checkSources lookup rest
        (tail.1, ip :: tail.2)
    | none =>
      let tail := checkSources lookup rest
      (tail.1, ip :: tail.2)

/-- Helper building the `attack_info` dictionary (lines 526-534). -/
def mkAttack (stat : DstStat) (entropy : ℝ) (attack_type : String)
    (abuse_info : Option AbuseResult) (entropy_triggered : Bool) : AttackInfo :=
  { dst_ip := stat.dst_ip
    bps := stat.bps
    entropy := entropy
    unique_sources := stat.unique_sources
    attack_type := attack_type
    abuse_info := abuse_info
    entropy_triggered := entropy_triggered }

/-- The loop-local variable `entropy` of `detect_attacks` (line 481). -/
noncomputable def statEntropy (stat : DstStat) : ℝ :=
  calculate_normalized_entropy stat.src_ips stat.src_bytes

/-- The loop-local variable `attack_type` of `detect_attacks`
(lines 484-487): the classification label chosen from the entropy. -/
noncomputable def statAttackType (th : Thresholds) (stat : DstStat) : String :=
  if statEntropy stat > (th.entropy_threshold : ℝ) then "DDoS" else "DoS"

/-- The body of the per-destination loop of `detect_attacks`
(lines 478-543) for one `stat`, given the cycle's quota flag.  Returns the
events appended for this destination (zero or one), the reputation queries
issued for it, and the updated quota flag. -/
noncomputable def processStat (th : Thresholds) (enabled : Bool)
    (lookup : String → Option AbuseResult) (stat : DstStat) (quota : Bool) :
    List AttackInfo × List String × Bool :=
  if stat.bps > th.dst_bps_threshold then
    if !quota && enabled then
      match checkSources lookup stat.src_ips with
      | (some r, qs) =>
        ([mkAttack stat (statEntropy stat) (statAttackType th stat) (some r) false],
          qs, true)
      | (none, qs) =>
        if statEntropy stat > (th.entropy_threshold : ℝ) then
          ([mkAttack stat (statEntropy stat) (statAttackType th stat) none true],
            qs, quota)
        else ([], qs, quota)
    else
      if statEntropy stat > (th.entropy_threshold : ℝ) then
        ([mkAttack stat (statEntropy stat) (statAttackType th stat) none true],
          [], quota)
      else ([], [], quota)
  else ([], [], quota)

/-- The per-destination loop of `detect_attacks` (lines 475-544), folding the
quota flag through the destinations in provider order. -/
noncomputable def processStats (th : Thresholds) (enabled : Bool)
    (lookup : String → Option AbuseResult) :
    List DstStat → Bool → List AttackInfo × List String × Bool
  | [], quota => ([], [], quota)
  | stat :: rest, quota =>
    let step := processStat th enabled lookup stat quota
    let tail := processStats th enabled lookup rest step.2.2
    (step.1 ++ tail.1, step.2.1 ++ tail.2.1, tail.2.2)

/-- The collaborator responses consumed by one call of `detect_attacks`. -/
structure DetectInput where
  thresholds : Thresholds
  abuse_enabled : Bool
  total_raw : Except String ℚ
  dst_raw : Except String (List DstStat)
  reputation : String → Except String (Option IPData)

/-- The observable outcome of one call of `detect_attacks`: the events, and
the externally visible effects (whether the per-destination query ran, and
which source IPs were sent to the reputation service). -/
structure DetectOutput where
  attacks : List AttackInfo
  dst_query_invoked : Bool
  reputation_queries : List String

/-- `DDoSDetector.detect_attacks` (lines 446-545).  The global gate returns
early when the total external bit-rate does not exceed the threshold; the
quota flag `api_quota_reached` starts at `false` on every call (line 476). -/
noncomputable def detect_attacks (inp : DetectInput) : DetectOutput :=
  let total_external_bps := get_total_external_traffic inp.total_raw
  if total_external_bps ≤ inp.thresholds.total_external_bps_threshold then
    { attacks := [], dst_query_invoked := false, reputation_queries := [] }
  else
    let dst_stats := get_dst_traffic_stats inp.dst_raw
    let res := processStats inp.thresholds inp.abuse_enabled
      (fun ip => check_ip inp.abuse_enabled (inp.reputation ip)) dst_stats false
    { attacks := res.1
      dst_query_invoked := true
      reputation_queries := res.2.1 }

/-- Notification configuration (config keys `notifications.discord_webhook`,
`notifications.slack_webhook`, `notifications.cooldown`). -/
structure NotifConfig where
  discord_webhook : String
  slack_webhook : String
  cooldown : ℚ

/-- The `last_notifications` dictionary of `NotificationManager`, newest
binding first; `lookupLast` returns the current binding of a target. -/
def NotifState := List (String × ℚ)

/-- Current binding of `target` in the notification state. -/
def lookupLast (st : NotifState) (target : String) : Option ℚ :=
  match st with
  | [] => none
  | (k, v) :: rest => if k = target then some v else lookupLast rest target

/-- `NotificationManager._should_notify` (lines 273-281). -/
def should_notify (cooldown : ℚ) (st : NotifState) (now : ℚ)
    (target : String) : Bool :=
  match lookupLast st target with
  | none => true
  | some last_time => decide (now - last_time ≥ cooldown)

/-- One webhook dispatch attempt, with the severity colour placed in the
payload (`_send_discord` line 354, `_send_slack` line 384). -/
inductive TransportCall where
  | discord (url : String) (color : ℕ)
  | slack (url : String) (color : String)
deriving DecidableEq

/-- Colour choice of `NotificationManager._send_discord` (lines 342-346). -/
def discord_color (attack : AttackInfo) : ℕ :=
  if attack.attack_type = "DDoS" then 0xFF0000 else 0xFF6600

/-- Colour choice of `NotificationManager._send_slack` (lines 374-378). -/
def slack_color (attack : AttackInfo) : String :=
  if attack.attack_type = "DDoS" then "danger" else "warning"

/-- `NotificationManager.send_alert` (lines 283-305): the cooldown gate, the
per-channel dispatch attempts (a channel is configured when its webhook URL
is non-empty), and the unconditional timestamp update after the gate.
Returns the new state and the transport calls attempted. -/
def send_alert (cfg : NotifConfig) (st : NotifState) (now : ℚ)
    (attack : AttackInfo) : NotifState × List TransportCall :=
  let target := attack.dst_ip
  if !(should_notify cfg.cooldown st now target) then (st, [])
  else
    let calls :=
      (if cfg.discord_webhook ≠ "" then
        [TransportCall.discord cfg.discord_webhook (discord_color attack)]
      else []) ++
      (if cfg.slack_webhook ≠ "" then
        [TransportCall.slack cfg.slack_webhook (slack_color attack)]
      else [])
    ((target, now) :: st, calls)

/-- The normalized-entropy formula exactly as the claim states it,
parameterized by the normalization count `n` (which the claim takes to be the
number of distinct entries of the source list): probabilities over the
positive weights, raw entropy `H = -Σ p_i * log2 p_i`, result `0` when
`n ≤ 1`, else `H / log2 n`. -/
noncomputable def claimEntropyFormula (n : ℕ) (w : List ℕ) : ℝ :=
  if n ≤ 1 then 0
  else
    (-(∑ i ∈ Finset.range w.length,
        if 0 < w.getD i 0 then
          ((w.getD i 0 : ℝ) / (w.sum : ℝ)) *
            Real.logb 2 ((w.getD i 0 : ℝ) / (w.sum : ℝ))
        else 0)) / Real.logb 2 (n : ℝ)

/-- A reputation-service response body with the given report count and
confidence score. -/
def sampleIPData (reports score : ℤ) : IPData :=
  { ipAddress := "9.9.9.9"
    abuseConfidenceScore := score
    totalReports := reports
    countryCode := "ZZ"
    usageType := "Data Center"
    isp := "ExampleISP" }

/-- A destination row used by concrete test scenarios. -/
def sampleStat (ip : String) (bps : ℚ) (srcs : List String)
    (bytes : List ℕ) : DstStat :=
  { dst_ip := ip, bps := bps, src_ips := srcs, src_bytes := bytes
    unique_sources := srcs.length }

/-- Concrete cycle input for the reputation-hit scenario: gate passes, one
destination above threshold with a single source whose lookup reports it. -/
def hitInput : DetectInput :=
  { thresholds := { total_external_bps_threshold := 0
                    dst_bps_threshold := 0
                    entropy_threshold := 1/2 }
    abuse_enabled := true
    total_raw := Except.ok 1
    dst_raw := Except.ok [sampleStat "198.51.100.1" 1 ["6.6.6.6"] []]
    reputation := fun _ => Except.ok (some (sampleIPData 7 90)) }

/-- The event that `detect_attacks` emits on `hitInput`. -/
def hitEvent : AttackInfo :=
  { dst_ip := "198.51.100.1"
    bps := 1
    entropy := 0
    unique_sources := 1
    attack_type := "DoS"
    abuse_info := some (mkAbuseResult (sampleIPData 7 90))
    entropy_triggered := false }

/-- Concrete cycle input for the entropy-only scenario: reputation checker
disabled, one destination above threshold, empty source data so the computed
entropy is 0, and a negative entropy threshold so the entropy branch fires. -/
def entropyInput : DetectInput :=
  { thresholds := { total_external_bps_threshold := 0
                    dst_bps_threshold := 0
                    entropy_threshold := -1 }
    abuse_enabled := false
    total_raw := Except.ok 1
    dst_raw := Except.ok [sampleStat "198.51.100.2" 1 [] []]
    reputation := fun _ => Except.error "unreachable" }

/-- Concrete cycle input where every reputation response carries a positive
confidence score but zero reports. -/
def cleanInput : DetectInput :=
  { thresholds := { total_external_bps_threshold := 0
                    dst_bps_threshold := 0
                    entropy_threshold := 1/2 }
    abuse_enabled := true
    total_raw := Except.ok 1
    dst_raw := Except.ok [sampleStat "198.51.100.3" 1 ["7.7.7.7"] []]
    reputation := fun _ => Except.ok (some (sampleIPData 0 95)) }

/-- Concrete cycle input whose collaborator queries all fail. -/
def failInput : DetectInput :=
  { thresholds := { total_external_bps_threshold := 0
                    dst_bps_threshold := 0
                    entropy_threshold := 0 }
    abuse_enabled := false
    total_raw := Except.error "down"
    dst_raw := Except.error "down"
    reputation := fun _ => Except.error "down" }

/-- A fixed attack event used by the notification scenarios. -/
def sampleAttack : AttackInfo :=
  { dst_ip := "203.0.113.7"
    bps := 1
    entropy := 0
    unique_sources := 3
    attack_type := "DoS"
    abuse_info := none
    entropy_triggered := true }

/-! Theorems. -/

/-- When the total external bit-rate does not exceed the threshold, the
cycle stops at the global gate. -/
theorem detect_attacks_closed (inp : DetectInput)
    (h : get_total_external_traffic inp.total_raw ≤
      inp.thresholds.total_external_bps_threshold) :
    detect_attacks inp =
      { attacks := [], dst_query_invoked := false, reputation_queries := [] } := by
  unfold detect_attacks
  simp [h]

/-- C2: for every cycle in which the queried total external bit-rate does not
exceed the configured threshold, `detect_attacks` returns an empty list,
never invokes the per-destination statistics query, and issues no reputation
lookup. -/
theorem detect_global_gate (inp : DetectInput)
    (h : get_total_external_traffic inp.total_raw ≤
      inp.thresholds.total_external_bps_threshold) :
    detect_attacks inp =
      { attacks := [], dst_query_invoked := false, reputation_queries := [] } :=
  detect_attacks_closed inp h

/-- Witness for C2 at a concrete quiet cycle. -/
theorem detect_global_gate_witness :
    detect_attacks
      { thresholds := { total_external_bps_threshold := 5
                        dst_bps_threshold := 0
                        entropy_threshold := 0 }
        abuse_enabled := false
        total_raw := Except.ok 3
        dst_raw := Except.ok []
        reputation := fun _ => Except.error "down" } =
      { attacks := [], dst_query_invoked := false, reputation_queries := [] } :=
  detect_global_gate _ (by norm_num [get_total_external_traffic])

/-- C5: `send_alert` proceeds for a target iff the target has no stored
timestamp or the elapsed time since it is at least the cooldown; on
suppression it makes no transport call and leaves the state unchanged. -/
theorem send_alert_cooldown_gate (cfg : NotifConfig) (st : NotifState) (now : ℚ)
    (attack : AttackInfo) :
    (should_notify cfg.cooldown st now attack.dst_ip = true ↔
      (lookupLast st attack.dst_ip = none ∨
        ∃ t, lookupLast st attack.dst_ip = some t ∧ now - t ≥ cfg.cooldown)) ∧
    (should_notify cfg.cooldown st now attack.dst_ip = false →
      send_alert cfg st now attack = (st, [])) := by
  constructor
  · unfold should_notify
    cases h : lookupLast st attack.dst_ip <;> simp [h]
  · intro h
    unfold send_alert
    simp [h]

/-- Witness for C5 at a concrete state inside the cooldown window. -/
theorem send_alert_cooldown_gate_witness :
    (should_notify (300 : ℚ) [("203.0.113.7", (0 : ℚ))] 100 sampleAttack.dst_ip = true ↔
      (lookupLast [("203.0.113.7", (0 : ℚ))] sampleAttack.dst_ip = none ∨
        ∃ t, lookupLast [("203.0.113.7", (0 : ℚ))] sampleAttack.dst_ip = some t ∧
          (100 : ℚ) - t ≥ 300)) ∧
    (should_notify (300 : ℚ) [("203.0.113.7", (0 : ℚ))] 100 sampleAttack.dst_ip = false →
      send_alert { discord_webhook := "", slack_webhook := "", cooldown := 300 }
        [("203.0.113.7", (0 : ℚ))] 100 sampleAttack =
        ([("203.0.113.7", (0 : ℚ))], [])) :=
  send_alert_cooldown_gate
    { discord_webhook := "", slack_webhook := "", cooldown := 300 } _ _ _

/-- Counterexample to C6: with no channel configured, `send_alert` issues
zero dispatch attempts and still inserts the last-notification timestamp, so
the timestamp is not updated "only after at least one dispatch attempt". -/
theorem send_alert_timestamp_without_dispatch :
    send_alert { discord_webhook := "", slack_webhook := "", cooldown := 300 }
      [] 42 sampleAttack = ([("203.0.113.7", 42)], []) := rfl

/-- C6 amended: `send_alert` updates the stored timestamp to the current
time whenever the alert passes the cooldown gate — in particular on every
attempted dispatch, but also when no channel is configured — inserting or
updating the target's entry and restarting its cooldown window. -/
theorem send_alert_timestamp_after_gate (cfg : NotifConfig) (st : NotifState)
    (now : ℚ) (attack : AttackInfo)
    (h : should_notify cfg.cooldown st now attack.dst_ip = true) :
    (send_alert cfg st now attack).1 = (attack.dst_ip, now) :: st ∧
    lookupLast (send_alert cfg st now attack).1 attack.dst_ip = some now := by
  unfold send_alert
  simp [h, lookupLast]

/-- Witness for the amended C6 with a configured Discord channel. -/
theorem send_alert_timestamp_after_gate_witness :
    (send_alert { discord_webhook := "https://discord.example/hook"
                  slack_webhook := ""
                  cooldown := 300 } [] 42 sampleAttack).1 =
      (sampleAttack.dst_ip, 42) :: [] ∧
    lookupLast (send_alert { discord_webhook := "https://discord.example/hook"
                             slack_webhook := ""
                             cooldown := 300 } [] 42 sampleAttack).1
      sampleAttack.dst_ip = some 42 :=
  send_alert_timestamp_after_gate _ [] 42 sampleAttack rfl

/-- C8: every failing collaborator call is absorbed: a failed total-traffic
query behaves as bit-rate `0.0`, a failed per-destination query as an empty
destination list, a failed single-address reputation lookup as "no data"
with iteration continuing at the next address; no failure escapes the
cycle. -/
theorem collaborator_failures_absorbed :
    (∀ msg : String, get_total_external_traffic (Except.error msg) = 0) ∧
    (∀ msg : String, get_dst_traffic_stats (Except.error msg) = []) ∧
    (∀ (enabled : Bool) (msg : String),
      check_ip enabled (Except.error msg) = none) ∧
    (∀ (lookup : String → Option AbuseResult) (ip : String) (rest : List String),
      lookup ip = none →
      checkSources lookup (ip :: rest) =
        ((checkSources lookup rest).1, ip :: (checkSources lookup rest).2)) ∧
    (∀ (inp : DetectInput) (msg : String), inp.total_raw = Except.error msg →
      detect_attacks inp = detect_attacks { inp with total_raw := Except.ok 0 }) ∧
    (∀ (inp : DetectInput) (msg : String), inp.dst_raw = Except.error msg →
      detect_attacks inp = detect_attacks { inp with dst_raw := Except.ok [] }) := by
  refine ⟨fun _ => rfl, fun _ => rfl, ?_, ?_, ?_, ?_⟩
  · intro enabled msg
    cases enabled <;> rfl
  · intro lookup ip rest h
    simp [checkSources, h]
  · intro inp msg h
    unfold detect_attacks
    rw [h]
    rfl
  · intro inp msg h
    unfold detect_attacks
    rw [h]
    rfl

/-- Witness for C8 at concrete failing calls. -/
theorem collaborator_failures_absorbed_witness :
    get_total_external_traffic (Except.error "boom") = 0 ∧
    get_dst_traffic_stats (Except.error "boom") = [] ∧
    check_ip true (Except.error "boom") = none ∧
    checkSources (fun _ => none) ("1.1.1.1" :: ["2.2.2.2"]) =
      ((checkSources (fun _ => none) ["2.2.2.2"]).1,
        "1.1.1.1" :: (checkSources (fun _ => none) ["2.2.2.2"]).2) ∧
    detect_attacks failInput =
      detect_attacks { failInput with total_raw := Except.ok 0 } ∧
    detect_attacks failInput =
      detect_attacks { failInput with dst_raw := Except.ok [] } :=
  ⟨collaborator_failures_absorbed.1 "boom",
    collaborator_failures_absorbed.2.1 "boom",
    collaborator_failures_absorbed.2.2.1 true "boom",
    collaborator_failures_absorbed.2.2.2.1 _ "1.1.1.1" ["2.2.2.2"] rfl,
    collaborator_failures_absorbed.2.2.2.2.1 failInput "down" rfl,
    collaborator_failures_absorbed.2.2.2.2.2 failInput "down" rfl⟩

/-- C10: the computed entropy depends on the source-address list only
through its length: equal-length address lists paired with the same weight
list give identical results. -/
theorem entropy_ignores_address_values (ips1 ips2 : List String) (w : List ℕ)
    (h : ips1.length = ips2.length) :
    calculate_normalized_entropy ips1 w = calculate_normalized_entropy ips2 w := by
  have hEmpty : ips1.isEmpty = ips2.isEmpty := by
    cases ips1 <;> cases ips2 <;> simp_all
  unfold calculate_normalized_entropy
  rw [hEmpty, h]

/-- Witness for C10: a duplicated pair versus a distinct pair. -/
theorem entropy_ignores_address_values_witness :
    calculate_normalized_entropy ["1.2.3.4", "1.2.3.4"] [950, 50] =
      calculate_normalized_entropy ["1.2.3.4", "5.6.7.8"] [950, 50] :=
  entropy_ignores_address_values _ _ _ rfl

/-- Unfolding: the destination loop on an empty list. -/
theorem processStats_nil (th : Thresholds) (enabled : Bool)
    (lookup : String → Option AbuseResult) (quota : Bool) :
    processStats th enabled lookup [] quota = ([], [], quota) := rfl

/-- Unfolding: one iteration of the destination loop. -/
theorem processStats_cons (th : Thresholds) (enabled : Bool)
    (lookup : String → Option AbuseResult) (stat : DstStat)
    (rest : List DstStat) (quota : Bool) :
    processStats th enabled lookup (stat :: rest) quota =
      ((processStat th enabled lookup stat quota).1 ++
        (processStats th enabled lookup rest
          (processStat th enabled lookup stat quota).2.2).1,
       (processStat th enabled lookup stat quota).2.1 ++
        (processStats th enabled lookup rest
          (processStat th enabled lookup stat quota).2.2).2.1,
       (processStats th enabled lookup rest
          (processStat th enabled lookup stat quota).2.2).2.2) := rfl

/-- If no queried source is reported, the source loop queries the whole list
and returns no hit. -/
theorem checkSources_clean (lookup : String → Option AbuseResult) :
    ∀ (l : List String),
      (∀ s ∈ l, ∀ r, lookup s = some r → r.is_reported = false) →
      checkSources lookup l = (none, l)
  | [], _ => rfl
  | ip :: rest, h => by
    have ih := checkSources_clean lookup rest
      (fun s hs r hlr => h s (List.mem_cons_of_mem ip hs) r hlr)
    unfold checkSources
    cases hl : lookup ip with
    | none => simp [ih]
    | some r => simp [h ip (List.mem_cons_self ip rest) r hl, ih]

/-- The source loop stops at the first reported source: everything before
the hit is queried, the hit itself is queried and returned, and nothing
after the hit is queried. -/
theorem checkSources_hit (lookup : String → Option AbuseResult)
    (r : AbuseResult) (ip : String) (l2 : List String)
    (hip : lookup ip = some r) (hrep : r.is_reported = true) :
    ∀ (l1 : List String),
      (∀ s ∈ l1, ∀ r', lookup s = some r' → r'.is_reported = false) →
      checkSources lookup (l1 ++ ip :: l2) = (some r, l1 ++ [ip])
  | [], _ => by simp [checkSources, hip, hrep]
  | s :: rest, h => by
    have ih := checkSources_hit lookup r ip l2 hip hrep rest
      (fun x hx r' hlr => h x (List.mem_cons_of_mem s hx) r' hlr)
    rw [List.cons_append]
    unfold checkSources
    cases hl : lookup s with
    | none => simp [ih]
    | some r' => simp [h s (List.mem_cons_self s rest) r' hl, ih]

/-- A destination above the bit-rate threshold whose source loop hits, run
with the budget still available and the checker enabled, emits the event
with the hit as evidence and exhausts the budget. -/
theorem processStat_hit (th : Thresholds) (enabled : Bool)
    (lookup : String → Option AbuseResult) (stat : DstStat) (r : AbuseResult)
    (qs : List String) (hen : enabled = true)
    (hbps : stat.bps > th.dst_bps_threshold)
    (hcs : checkSources lookup stat.src_ips = (some r, qs)) :
    processStat th enabled lookup stat false =
      ([mkAttack stat (statEntropy stat) (statAttackType th stat) (some r) false],
        qs, true) := by
  subst hen
  unfold processStat
  rw [if_pos hbps]
  simp [hcs]

/-- With the budget exhausted, a destination issues no reputation query,
keeps the budget exhausted, and can only emit an entropy-triggered event
without evidence. -/
theorem processStat_quota_true (th : Thresholds) (enabled : Bool)
    (lookup : String → Option AbuseResult) (stat : DstStat) :
    (processStat th enabled lookup stat true).2.1 = [] ∧
    (processStat th enabled lookup stat true).2.2 = true ∧
    ∀ e ∈ (processStat th enabled lookup stat true).1,
      e.abuse_info = none ∧ e.entropy_triggered = true := by
  unfold processStat
  by_cases hbps : stat.bps > th.dst_bps_threshold
  · rw [if_pos hbps]
    by_cases hent : statEntropy stat > (th.entropy_threshold : ℝ)
    · simp [hent, mkAttack]
    · simp [hent]
  · rw [if_neg hbps]
    simp

/-- With the budget exhausted, the rest of the cycle issues no reputation
query, the budget stays exhausted, and every remaining event has no
reputation evidence and is entropy-triggered. -/
theorem processStats_quota_true (th : Thresholds) (enabled : Bool)
    (lookup : String → Option AbuseResult) :
    ∀ (l : List DstStat),
      (processStats th enabled lookup l true).2.1 = [] ∧
      (processStats th enabled lookup l true).2.2 = true ∧
      ∀ e ∈ (processStats th enabled lookup l true).1,
        e.abuse_info = none ∧ e.entropy_triggered = true
  | [] => by simp [processStats]
  | stat :: rest => by
    obtain ⟨hq, hflag, hev⟩ := processStat_quota_true th enabled lookup stat
    obtain ⟨ihq, ihflag, ihev⟩ := processStats_quota_true th enabled lookup rest
    rw [processStats_cons, hflag]
    refine ⟨?_, ?_, ?_⟩
    · simp [hq, ihq]
    · simp [ihflag]
    · intro e he
      rcases List.mem_append.mp he with h | h
      · exact hev e h
      · exact ihev e h

/-- Every event emitted for one destination records the entropy it was
classified with, carries the classification label derived from that entropy,
and is justified exactly one way: reputation evidence with the entropy
trigger off, or no evidence with the entropy trigger on and entropy above
the threshold. -/
theorem processStat_mem (th : Thresholds) (enabled : Bool)
    (lookup : String → Option AbuseResult) (stat : DstStat) (quota : Bool)
    (e : AttackInfo) (he : e ∈ (processStat th enabled lookup stat quota).1) :
    e.attack_type =
      (if e.entropy > (th.entropy_threshold : ℝ) then "DDoS" else "DoS") ∧
    ((e.abuse_info ≠ none ∧ e.entropy_triggered = false) ∨
     (e.abuse_info = none ∧ e.entropy_triggered = true ∧
       e.entropy > (th.entropy_threshold : ℝ))) := by
  unfold processStat at he
  by_cases hbps : stat.bps > th.dst_bps_threshold
  · rw [if_pos hbps] at he
    by_cases hq : (!quota && enabled) = true
    · rw [if_pos hq] at he
      rcases hcs : checkSources lookup stat.src_ips with ⟨o, qs⟩
      rw [hcs] at he
      cases o with
      | some r =>
        simp only [List.mem_singleton] at he
        subst he
        exact ⟨by simp [mkAttack, statAttackType], Or.inl (by simp [mkAttack])⟩
      | none =>
        dsimp only at he
        by_cases hent : statEntropy stat > (th.entropy_threshold : ℝ)
        · rw [if_pos hent] at he
          simp only [List.mem_singleton] at he
          subst he
          exact ⟨by simp [mkAttack, statAttackType],
            Or.inr (by simp [mkAttack]; exact hent)⟩
        · rw [if_neg hent] at he
          simp at he
    · rw [if_neg hq] at he
      by_cases hent : statEntropy stat > (th.entropy_threshold : ℝ)
      · rw [if_pos hent] at he
        simp only [List.mem_singleton] at he
        subst he
        exact ⟨by simp [mkAttack, statAttackType],
          Or.inr (by simp [mkAttack]; exact hent)⟩
      · rw [if_neg hent] at he
        simp at he
  · rw [if_neg hbps] at he
    simp at he

/-- Lift of the per-destination event invariant to the whole loop. -/
theorem processStats_mem (th : Thresholds) (enabled : Bool)
    (lookup : String → Option AbuseResult) :
    ∀ (l : List DstStat) (quota : Bool) (e : AttackInfo),
      e ∈ (processStats th enabled lookup l quota).1 →
      e.attack_type =
        (if e.entropy > (th.entropy_threshold : ℝ) then "DDoS" else "DoS") ∧
      ((e.abuse_info ≠ none ∧ e.entropy_triggered = false) ∨
       (e.abuse_info = none ∧ e.entropy_triggered = true ∧
         e.entropy > (th.entropy_threshold : ℝ)))
  | [], quota, e, he => by simp [processStats] at he
  | stat :: rest, quota, e, he => by
    rw [processStats_cons] at he
    rcases List.mem_append.mp he with h | h
    · exact processStat_mem th enabled lookup stat quota e h
    · exact processStats_mem th enabled lookup rest _ e h

/-- When the global gate is open, `detect_attacks` runs the destination
loop starting with the budget flag at `false`. -/
theorem detect_attacks_open (inp : DetectInput)
    (htot : ¬ get_total_external_traffic inp.total_raw ≤
      inp.thresholds.total_external_bps_threshold) :
    detect_attacks inp =
      { attacks := (processStats inp.thresholds inp.abuse_enabled
          (fun ip => check_ip inp.abuse_enabled (inp.reputation ip))
          (get_dst_traffic_stats inp.dst_raw) false).1
        dst_query_invoked := true
        reputation_queries := (processStats inp.thresholds inp.abuse_enabled
          (fun ip => check_ip inp.abuse_enabled (inp.reputation ip))
          (get_dst_traffic_stats inp.dst_raw) false).2.1 } := by
  simp only [detect_attacks]
  rw [if_neg htot]

/-- The event invariant holds of every event a cycle returns. -/
theorem detect_event_invariant (inp : DetectInput) (e : AttackInfo)
    (he : e ∈ (detect_attacks inp).attacks) :
    e.attack_type =
      (if e.entropy > (inp.thresholds.entropy_threshold : ℝ) then "DDoS" else "DoS") ∧
    ((e.abuse_info ≠ none ∧ e.entropy_triggered = false) ∨
     (e.abuse_info = none ∧ e.entropy_triggered = true ∧
       e.entropy > (inp.thresholds.entropy_threshold : ℝ))) := by
  by_cases htot : get_total_external_traffic inp.total_raw ≤
      inp.thresholds.total_external_bps_threshold
  · rw [detect_attacks_closed inp htot] at he
    simp at he
  · rw [detect_attacks_open inp htot] at he
    exact processStats_mem inp.thresholds inp.abuse_enabled _ _ false e he

/-- If no lookup result is ever reported, one destination leaves the budget
flag unchanged and can only emit an entropy-triggered event. -/
theorem processStat_clean (th : Thresholds) (enabled : Bool)
    (lookup : String → Option AbuseResult) (stat : DstStat) (quota : Bool)
    (h : ∀ s r, lookup s = some r → r.is_reported = false) :
    (processStat th enabled lookup stat quota).2.2 = quota ∧
    ∀ e ∈ (processStat th enabled lookup stat quota).1,
      e.abuse_info = none ∧ e.entropy_triggered = true := by
  have hcs := checkSources_clean lookup stat.src_ips (fun s _ r hr => h s r hr)
  unfold processStat
  by_cases hbps : stat.bps > th.dst_bps_threshold
  · rw [if_pos hbps]
    by_cases hq : (!quota && enabled) = true
    · rw [if_pos hq, hcs]
      by_cases hent : statEntropy stat > (th.entropy_threshold : ℝ)
      · simp [hent, mkAttack]
      · simp [hent]
    · rw [if_neg hq]
      by_cases hent : statEntropy stat > (th.entropy_threshold : ℝ)
      · simp [hent, mkAttack]
      · simp [hent]
  · rw [if_neg hbps]
    simp

/-- If no lookup result is ever reported, the whole cycle leaves the budget
flag unchanged and every event is entropy-triggered without evidence. -/
theorem processStats_clean (th : Thresholds) (enabled : Bool)
    (lookup : String → Option AbuseResult)
    (h : ∀ s r, lookup s = some r → r.is_reported = false) :
    ∀ (l : List DstStat) (quota : Bool),
      (processStats th enabled lookup l quota).2.2 = quota ∧
      ∀ e ∈ (processStats th enabled lookup l quota).1,
        e.abuse_info = none ∧ e.entropy_triggered = true
  | [], quota => by simp [processStats]
  | stat :: rest, quota => by
    obtain ⟨hflag, hev⟩ := processStat_clean th enabled lookup stat quota h
    obtain ⟨ihflag, ihev⟩ := processStats_clean th enabled lookup h rest quota
    rw [processStats_cons, hflag]
    refine ⟨ihflag, ?_⟩
    intro e he
    rcases List.mem_append.mp he with hm | hm
    · exact hev e hm
    · exact ihev e hm

/-- C1: once a reputation lookup hits inside a cycle, the hit is recorded as
that event's evidence, no later source of that destination is queried, no
reputation lookup is issued for any remaining destination, and every event
of a later destination has no evidence and is entropy-triggered; the budget
flag is local to the call and starts `false` (the cycle enters the loop with
`false`, which is why the first destination may query at all). -/
theorem detect_reputation_shortcircuit (inp : DetectInput) (stat : DstStat)
    (rest : List DstStat) (l1 l2 : List String) (ip : String) (r : AbuseResult)
    (hsrc : stat.src_ips = l1 ++ ip :: l2)
    (hclean : ∀ s ∈ l1, ∀ r',
      check_ip inp.abuse_enabled (inp.reputation s) = some r' →
      r'.is_reported = false)
    (hip : check_ip inp.abuse_enabled (inp.reputation ip) = some r)
    (hrep : r.is_reported = true)
    (hbps : stat.bps > inp.thresholds.dst_bps_threshold)
    (hen : inp.abuse_enabled = true)
    (htot : ¬ get_total_external_traffic inp.total_raw ≤
      inp.thresholds.total_external_bps_threshold)
    (hdst : get_dst_traffic_stats inp.dst_raw = stat :: rest) :
    (detect_attacks inp).attacks =
      mkAttack stat (statEntropy stat) (statAttackType inp.thresholds stat)
          (some r) false ::
        (processStats inp.thresholds inp.abuse_enabled
          (fun s => check_ip inp.abuse_enabled (inp.reputation s)) rest true).1 ∧
    (detect_attacks inp).reputation_queries = l1 ++ [ip] ∧
    ∀ e ∈ (processStats inp.thresholds inp.abuse_enabled
        (fun s => check_ip inp.abuse_enabled (inp.reputation s)) rest true).1,
      e.abuse_info = none ∧ e.entropy_triggered = true := by
  have hcs : checkSources
      (fun s => check_ip inp.abuse_enabled (inp.reputation s)) stat.src_ips =
      (some r, l1 ++ [ip]) := by
    rw [hsrc]
    exact checkSources_hit _ r ip l2 hip hrep l1 hclean
  have hstep := processStat_hit inp.thresholds inp.abuse_enabled
    (fun s => check_ip inp.abuse_enabled (inp.reputation s)) stat r
    (l1 ++ [ip]) hen hbps hcs
  obtain ⟨hq, hflag, hev⟩ := processStats_quota_true inp.thresholds
    inp.abuse_enabled
    (fun s => check_ip inp.abuse_enabled (inp.reputation s)) rest
  rw [detect_attacks_open inp htot, hdst]
  refine ⟨?_, ?_, hev⟩
  · rw [processStats_cons, hstep]
    simp
  · rw [processStats_cons, hstep]
    simp [hq]

/-- Witness for C1: concrete cycle with one destination whose single source
is reported. -/
theorem detect_reputation_shortcircuit_witness :
    (detect_attacks hitInput).attacks =
      mkAttack (sampleStat "198.51.100.1" 1 ["6.6.6.6"] [])
          (statEntropy (sampleStat "198.51.100.1" 1 ["6.6.6.6"] []))
          (statAttackType hitInput.thresholds
            (sampleStat "198.51.100.1" 1 ["6.6.6.6"] []))
          (some (mkAbuseResult (sampleIPData 7 90))) false ::
        (processStats hitInput.thresholds hitInput.abuse_enabled
          (fun s => check_ip hitInput.abuse_enabled (hitInput.reputation s))
          [] true).1 ∧
    (detect_attacks hitInput).reputation_queries = [] ++ ["6.6.6.6"] ∧
    ∀ e ∈ (processStats hitInput.thresholds hitInput.abuse_enabled
        (fun s => check_ip hitInput.abuse_enabled (hitInput.reputation s))
        [] true).1,
      e.abuse_info = none ∧ e.entropy_triggered = true :=
  detect_reputation_shortcircuit hitInput
    (sampleStat "198.51.100.1" 1 ["6.6.6.6"] []) [] [] [] "6.6.6.6"
    (mkAbuseResult (sampleIPData 7 90)) rfl (by simp) rfl rfl
    (by norm_num [sampleStat, hitInput]) rfl
    (by norm_num [hitInput, get_total_external_traffic]) rfl

/-- C4: every event a cycle returns is justified exactly one way: either it
carries reputation evidence with the entropy trigger off, or it carries no
evidence, is entropy-triggered, and its entropy strictly exceeds the
threshold. -/
theorem detect_event_justification (inp : DetectInput) (e : AttackInfo)
    (he : e ∈ (detect_attacks inp).attacks) :
    (e.abuse_info ≠ none ∧ e.entropy_triggered = false) ∨
    (e.abuse_info = none ∧ e.entropy_triggered = true ∧
      e.entropy > (inp.thresholds.entropy_threshold : ℝ)) :=
  (detect_event_invariant inp e he).2

/-- Evaluation of the entropy-only scenario: the cycle emits exactly the
entropy-triggered event. -/
theorem entropyInput_attacks :
    (detect_attacks entropyInput).attacks =
      [mkAttack (sampleStat "198.51.100.2" 1 [] [])
        (statEntropy (sampleStat "198.51.100.2" 1 [] []))
        (statAttackType entropyInput.thresholds (sampleStat "198.51.100.2" 1 [] []))
        none true] := by
  have hent : statEntropy (sampleStat "198.51.100.2" 1 [] []) = 0 := by
    simp [statEntropy, sampleStat, calculate_normalized_entropy]
  have hcomp : statEntropy (sampleStat "198.51.100.2" 1 [] []) >
      ((entropyInput.thresholds.entropy_threshold : ℚ) : ℝ) := by
    rw [hent]
    norm_num [entropyInput]
  rw [detect_attacks_open entropyInput
    (by norm_num [entropyInput, get_total_external_traffic])]
  dsimp only
  rw [show get_dst_traffic_stats entropyInput.dst_raw =
    [sampleStat "198.51.100.2" 1 [] []] from rfl]
  rw [processStats_cons, processStats_nil]
  unfold processStat
  rw [if_pos (show (sampleStat "198.51.100.2" 1 [] []).bps >
    entropyInput.thresholds.dst_bps_threshold by norm_num [sampleStat, entropyInput])]
  rw [if_neg (show ¬ ((!false && entropyInput.abuse_enabled) = true) by
    simp [entropyInput])]
  rw [if_pos hcomp]
  simp

/-- Witness for C4: the event of the entropy-only scenario is justified by
the entropy branch. -/
theorem detect_event_justification_witness :
    ((mkAttack (sampleStat "198.51.100.2" 1 [] [])
        (statEntropy (sampleStat "198.51.100.2" 1 [] []))
        (statAttackType entropyInput.thresholds (sampleStat "198.51.100.2" 1 [] []))
        none true).abuse_info ≠ none ∧
      (mkAttack (sampleStat "198.51.100.2" 1 [] [])
        (statEntropy (sampleStat "198.51.100.2" 1 [] []))
        (statAttackType entropyInput.thresholds (sampleStat "198.51.100.2" 1 [] []))
        none true).entropy_triggered = false) ∨
    ((mkAttack (sampleStat "198.51.100.2" 1 [] [])
        (statEntropy (sampleStat "198.51.100.2" 1 [] []))
        (statAttackType entropyInput.thresholds (sampleStat "198.51.100.2" 1 [] []))
        none true).abuse_info = none ∧
      (mkAttack (sampleStat "198.51.100.2" 1 [] [])
        (statEntropy (sampleStat "198.51.100.2" 1 [] []))
        (statAttackType entropyInput.thresholds (sampleStat "198.51.100.2" 1 [] []))
        none true).entropy_triggered = true ∧
      (mkAttack (sampleStat "198.51.100.2" 1 [] [])
        (statEntropy (sampleStat "198.51.100.2" 1 [] []))
        (statAttackType entropyInput.thresholds (sampleStat "198.51.100.2" 1 [] []))
        none true).entropy >
        (entropyInput.thresholds.entropy_threshold : ℝ)) :=
  detect_event_justification entropyInput _
    (by rw [entropyInput_attacks]; exact List.mem_singleton_self _)

/-- Evaluation of the reputation-hit scenario: the cycle emits exactly the
evidence-backed event, querying exactly the one source. -/
theorem hitInput_attacks :
    (detect_attacks hitInput).attacks = [hitEvent] ∧
    (detect_attacks hitInput).reputation_queries = ["6.6.6.6"] := by
  have hent : statEntropy (sampleStat "198.51.100.1" 1 ["6.6.6.6"] []) = 0 := by
    simp [statEntropy, sampleStat, calculate_normalized_entropy]
  have hty : statAttackType hitInput.thresholds
      (sampleStat "198.51.100.1" 1 ["6.6.6.6"] []) = "DoS" := by
    unfold statAttackType
    rw [hent, if_neg]
    norm_num [hitInput]
  have hcs : checkSources
      (fun s => check_ip hitInput.abuse_enabled (hitInput.reputation s))
      (sampleStat "198.51.100.1" 1 ["6.6.6.6"] []).src_ips =
      (some (mkAbuseResult (sampleIPData 7 90)), ["6.6.6.6"]) := rfl
  have hstep := processStat_hit hitInput.thresholds hitInput.abuse_enabled
    (fun s => check_ip hitInput.abuse_enabled (hitInput.reputation s))
    (sampleStat "198.51.100.1" 1 ["6.6.6.6"] [])
    (mkAbuseResult (sampleIPData 7 90)) ["6.6.6.6"] rfl
    (by norm_num [sampleStat, hitInput]) hcs
  rw [detect_attacks_open hitInput
    (by norm_num [hitInput, get_total_external_traffic])]
  dsimp only
  rw [show get_dst_traffic_stats hitInput.dst_raw =
    [sampleStat "198.51.100.1" 1 ["6.6.6.6"] []] from rfl]
  rw [processStats_cons, hstep, processStats_nil]
  constructor
  · simp [sampleStat] at hent hty
    simp [mkAttack, hitEvent, sampleStat, hent, hty]
  · simp

/-- Counterexample to C7: on the reputation-hit scenario the emitted event
carries reputation evidence and is not entropy-triggered, yet both channels
attach the lower-severity colour, because the code selects the colour from
the entropy classification, not from the trigger reason. -/
theorem severity_color_ignores_trigger :
    (detect_attacks hitInput).attacks = [hitEvent] ∧
    hitEvent.abuse_info = some (mkAbuseResult (sampleIPData 7 90)) ∧
    hitEvent.entropy_triggered = false ∧
    discord_color hitEvent = 0xFF6600 ∧
    ¬ discord_color hitEvent = 0xFF0000 ∧
    slack_color hitEvent = "warning" ∧
    ¬ slack_color hitEvent = "danger" :=
  ⟨hitInput_attacks.1, rfl, rfl, rfl, by decide, rfl, by decide⟩

/-- C7 amended: for every event a cycle returns, the severity colour is
selected by the entropy classification (the `attack_type` label): entropy
above the threshold gives the higher-severity colour and otherwise the
lower one, regardless of the trigger reason, with the same rule and the
same two-colour palette on both channels. -/
theorem severity_color_by_classification (inp : DetectInput) (e : AttackInfo)
    (he : e ∈ (detect_attacks inp).attacks) :
    (discord_color e = 0xFF0000 ↔
      e.entropy > (inp.thresholds.entropy_threshold : ℝ)) ∧
    (slack_color e = "danger" ↔
      e.entropy > (inp.thresholds.entropy_threshold : ℝ)) ∧
    (discord_color e = 0xFF0000 ∨ discord_color e = 0xFF6600) ∧
    (slack_color e = "danger" ∨ slack_color e = "warning") := by
  have hty := (detect_event_invariant inp e he).1
  by_cases hent : e.entropy > (inp.thresholds.entropy_threshold : ℝ)
  · rw [if_pos hent] at hty
    simp [discord_color, slack_color, hty, hent]
  · rw [if_neg hent] at hty
    simp [discord_color, slack_color, hty, hent]

/-- Witness for the amended C7 on the reputation-hit scenario's event. -/
theorem severity_color_by_classification_witness :
    (discord_color hitEvent = 0xFF0000 ↔
      hitEvent.entropy > (hitInput.thresholds.entropy_threshold : ℝ)) ∧
    (slack_color hitEvent = "danger" ↔
      hitEvent.entropy > (hitInput.thresholds.entropy_threshold : ℝ)) ∧
    (discord_color hitEvent = 0xFF0000 ∨ discord_color hitEvent = 0xFF6600) ∧
    (slack_color hitEvent = "danger" ∨ slack_color hitEvent = "warning") :=
  severity_color_by_classification hitInput hitEvent
    (by rw [hitInput_attacks.1]; exact List.mem_singleton_self _)

/-- C9: a successful reputation lookup is flagged `is_reported` iff its
report count is strictly positive; the confidence score has no influence,
so responses with a positive score but zero reports never yield reputation
evidence and never exhaust the cycle's reputation budget. -/
theorem is_reported_iff_total_reports :
    (∀ d : IPData, (mkAbuseResult d).is_reported = true ↔ 0 < d.totalReports) ∧
    (∀ (d : IPData) (c : ℤ),
      (mkAbuseResult { d with abuseConfidenceScore := c }).is_reported =
        (mkAbuseResult d).is_reported) ∧
    (∀ inp : DetectInput,
      (∀ ip d, inp.reputation ip = Except.ok (some d) → d.totalReports ≤ 0) →
      (∀ e ∈ (detect_attacks inp).attacks,
        e.abuse_info = none ∧ e.entropy_triggered = true) ∧
      ∀ l : List DstStat,
        (processStats inp.thresholds inp.abuse_enabled
          (fun s => check_ip inp.abuse_enabled (inp.reputation s)) l
          false).2.2 = false) := by
  refine ⟨?_, ?_, ?_⟩
  · intro d
    simp [mkAbuseResult]
  · intro d c
    simp [mkAbuseResult]
  · intro inp h
    have hlk : ∀ s r,
        (fun s => check_ip inp.abuse_enabled (inp.reputation s)) s = some r →
        r.is_reported = false := by
      intro s r hr
      dsimp only at hr
      unfold check_ip at hr
      rcases henb : inp.abuse_enabled with _ | _ <;> rw [henb] at hr
      · simp at hr
      · simp only [Bool.not_true] at hr
        rcases hresp : inp.reputation s with msg | o <;> rw [hresp] at hr
        · simp at hr
        · cases o with
          | none => simp at hr
          | some d =>
            simp only [if_false] at hr
            have hd := h s d hresp
            cases hr
            simp [mkAbuseResult, not_lt.mpr hd]
    constructor
    · intro e he
      by_cases htot : get_total_external_traffic inp.total_raw ≤
          inp.thresholds.total_external_bps_threshold
      · rw [detect_attacks_closed inp htot] at he
        simp at he
      · rw [detect_attacks_open inp htot] at he
        exact (processStats_clean inp.thresholds inp.abuse_enabled _ hlk
          (get_dst_traffic_stats inp.dst_raw) false).2 e he
    · intro l
      exact (processStats_clean inp.thresholds inp.abuse_enabled _ hlk l false).1

/-- Witness for C9 on a concrete zero-report, high-confidence response. -/
theorem is_reported_iff_total_reports_witness :
    ((mkAbuseResult (sampleIPData 0 95)).is_reported = true ↔
      0 < (sampleIPData 0 95).totalReports) ∧
    (mkAbuseResult { sampleIPData 0 95 with abuseConfidenceScore := 7 }).is_reported =
      (mkAbuseResult (sampleIPData 0 95)).is_reported ∧
    ((∀ e ∈ (detect_attacks cleanInput).attacks,
        e.abuse_info = none ∧ e.entropy_triggered = true) ∧
      ∀ l : List DstStat,
        (processStats cleanInput.thresholds cleanInput.abuse_enabled
          (fun s => check_ip cleanInput.abuse_enabled (cleanInput.reputation s)) l
          false).2.2 = false) :=
  ⟨is_reported_iff_total_reports.1 (sampleIPData 0 95),
    is_reported_iff_total_reports.2.1 (sampleIPData 0 95) 7,
    is_reported_iff_total_reports.2.2 cleanInput (by
      intro ip d hd
      simp only [cleanInput] at hd
      cases hd
      decide)⟩

/-- A list sum of mapped naturals as a sum over the index range. -/
theorem map_sum_eq_sum_range {M : Type*} [AddCommMonoid M] (f : ℕ → M) :
    ∀ (w : List ℕ), (w.map f).sum = ∑ i ∈ Finset.range w.length, f (w.getD i 0)
  | [] => by simp
  | a :: l => by
    rw [List.map_cons, List.sum_cons, List.length_cons, Finset.sum_range_succ']
    simp only [List.getD_cons_succ, List.getD_cons_zero]
    rw [← map_sum_eq_sum_range f l, add_comm]

/-- Each in-range element of a list of naturals is at most the list's sum. -/
theorem getD_le_sum (w : List ℕ) (i : ℕ) (hi : i < w.length) :
    w.getD i 0 ≤ w.sum := by
  have hm : w.getD i 0 ∈ w := by
    rw [List.getD_eq_getElem _ _ hi]
    exact List.getElem_mem hi
  exact List.le_sum_of_mem hm

/-- A positive list sum has a positive element. -/
theorem exists_pos_getD (w : List ℕ) (h : 0 < w.sum) :
    ∃ i, i < w.length ∧ 0 < w.getD i 0 := by
  by_contra hc
  push_neg at hc
  have hz : w.sum = 0 := by
    have hmap := map_sum_eq_sum_range (fun b => b) w
    rw [List.map_id'] at hmap
    rw [hmap]
    exact Finset.sum_eq_zero fun i hi =>
      Nat.le_antisymm (hc i (Finset.mem_range.mp hi)) (Nat.zero_le _)
  omega

/-- Jensen bound: the natural-log Shannon entropy of the byte distribution
is at most the log of the number of weights. -/
theorem entropy_sum_log_le (w : List ℕ) (hpos : 0 < w.sum) :
    (∑ i ∈ Finset.range w.length,
      if 0 < w.getD i 0 then
        -(((w.getD i 0 : ℝ) / (w.sum : ℝ)) *
          Real.log ((w.getD i 0 : ℝ) / (w.sum : ℝ)))
      else 0)
      ≤ Real.log (w.length : ℝ) := by
  have hT : (0:ℝ) < (w.sum : ℝ) := by exact_mod_cast hpos
  set t : Finset ℕ := (Finset.range w.length).filter (fun i => 0 < w.getD i 0)
    with htdef
  have hwpos : ∀ i ∈ t, 0 < (w.getD i 0 : ℝ) := by
    intro i hi
    have h2 := (Finset.mem_filter.mp hi).2
    exact_mod_cast h2
  have hfilter :
      (∑ i ∈ Finset.range w.length,
        if 0 < w.getD i 0 then
          -(((w.getD i 0 : ℝ) / (w.sum : ℝ)) *
            Real.log ((w.getD i 0 : ℝ) / (w.sum : ℝ)))
        else 0)
      = ∑ i ∈ t, -(((w.getD i 0 : ℝ) / (w.sum : ℝ)) *
          Real.log ((w.getD i 0 : ℝ) / (w.sum : ℝ))) :=
    (Finset.sum_filter _ _).symm
  have hW1 : ∑ i ∈ t, (w.getD i 0 : ℝ) / (w.sum : ℝ) = 1 := by
    rw [← Finset.sum_div, div_eq_one_iff_eq (ne_of_gt hT)]
    have hify : ∑ i ∈ t, ((w.getD i 0 : ℕ) : ℝ)
        = ∑ i ∈ Finset.range w.length, ((w.getD i 0 : ℕ) : ℝ) := by
      rw [htdef, Finset.sum_filter]
      refine Finset.sum_congr rfl fun i _ => ?_
      by_cases h : 0 < w.getD i 0
      · rw [if_pos h]
      · rw [if_neg h, Nat.eq_zero_of_not_pos h, Nat.cast_zero]
    rw [hify, ← map_sum_eq_sum_range (fun b => ((b : ℕ) : ℝ)) w, ← Nat.cast_list_sum]
  have h0 : ∀ i ∈ t, (0:ℝ) ≤ (w.getD i 0 : ℝ) / (w.sum : ℝ) := fun i hi =>
    le_of_lt (div_pos (hwpos i hi) hT)
  have hmem : ∀ i ∈ t, ((w.sum : ℝ) / (w.getD i 0 : ℝ)) ∈ Set.Ioi (0:ℝ) :=
    fun i hi => Set.mem_Ioi.mpr (div_pos hT (hwpos i hi))
  have jensen := (strictConcaveOn_log_Ioi.concaveOn).le_map_sum h0 hW1 hmem
  have hLHS : ∑ i ∈ t, ((w.getD i 0 : ℝ) / (w.sum : ℝ)) •
      Real.log ((w.sum : ℝ) / (w.getD i 0 : ℝ))
      = ∑ i ∈ t, -(((w.getD i 0 : ℝ) / (w.sum : ℝ)) *
          Real.log ((w.getD i 0 : ℝ) / (w.sum : ℝ))) := by
    refine Finset.sum_congr rfl fun i hi => ?_
    rw [smul_eq_mul]
    rw [show ((w.sum : ℝ) / (w.getD i 0 : ℝ))
        = ((w.getD i 0 : ℝ) / (w.sum : ℝ))⁻¹ by rw [inv_div]]
    rw [Real.log_inv]
    ring
  have hcard : ∑ i ∈ t, ((w.getD i 0 : ℝ) / (w.sum : ℝ)) •
      ((w.sum : ℝ) / (w.getD i 0 : ℝ)) = (t.card : ℝ) := by
    have hone : ∀ i ∈ t, ((w.getD i 0 : ℝ) / (w.sum : ℝ)) •
        ((w.sum : ℝ) / (w.getD i 0 : ℝ)) = 1 := by
      intro i hi
      rw [smul_eq_mul, div_mul_div_comm,
        mul_comm ((w.getD i 0 : ℝ)) ((w.sum : ℝ)),
        div_self (mul_pos hT (hwpos i hi)).ne']
    rw [Finset.sum_congr rfl hone, Finset.sum_const, nsmul_eq_mul, mul_one]
  have hcardpos : 0 < t.card := by
    obtain ⟨i, hi, hip⟩ := exists_pos_getD w hpos
    exact Finset.card_pos.mpr
      ⟨i, Finset.mem_filter.mpr ⟨Finset.mem_range.mpr hi, hip⟩⟩
  have hcardle : (t.card : ℝ) ≤ (w.length : ℝ) := by
    have hle := Finset.card_filter_le (Finset.range w.length)
      (fun i => 0 < w.getD i 0)
    rw [Finset.card_range] at hle
    exact_mod_cast hle
  rw [hfilter, ← hLHS]
  calc ∑ i ∈ t, ((w.getD i 0 : ℝ) / (w.sum : ℝ)) •
        Real.log ((w.sum : ℝ) / (w.getD i 0 : ℝ))
      ≤ Real.log (∑ i ∈ t, ((w.getD i 0 : ℝ) / (w.sum : ℝ)) •
          ((w.sum : ℝ) / (w.getD i 0 : ℝ))) := jensen
    _ = Real.log (t.card : ℝ) := by rw [hcard]
    _ ≤ Real.log (w.length : ℝ) :=
        Real.log_le_log (by exact_mod_cast hcardpos) hcardle

/-- The base-2 entropy sum is the natural-log entropy sum divided by
`log 2`. -/
theorem entropy_logb_eq_log_div (w : List ℕ) :
    (∑ i ∈ Finset.range w.length,
      if 0 < w.getD i 0 then
        -(((w.getD i 0 : ℝ) / (w.sum : ℝ)) *
          Real.logb 2 ((w.getD i 0 : ℝ) / (w.sum : ℝ)))
      else 0)
    = (∑ i ∈ Finset.range w.length,
      if 0 < w.getD i 0 then
        -(((w.getD i 0 : ℝ) / (w.sum : ℝ)) *
          Real.log ((w.getD i 0 : ℝ) / (w.sum : ℝ)))
      else 0) / Real.log 2 := by
  rw [Finset.sum_div]
  refine Finset.sum_congr rfl fun i _ => ?_
  by_cases h : 0 < w.getD i 0
  · rw [if_pos h, if_pos h, ← Real.log_div_log]
    ring
  · rw [if_neg h, if_neg h, zero_div]

/-- The base-2 entropy sum is at most `log2` of the number of weights. -/
theorem entropy_logb_le (w : List ℕ) (hpos : 0 < w.sum) :
    (∑ i ∈ Finset.range w.length,
      if 0 < w.getD i 0 then
        -(((w.getD i 0 : ℝ) / (w.sum : ℝ)) *
          Real.logb 2 ((w.getD i 0 : ℝ) / (w.sum : ℝ)))
      else 0)
    ≤ Real.logb 2 (w.length : ℝ) := by
  rw [entropy_logb_eq_log_div, ← Real.log_div_log]
  exact (div_le_div_iff_of_pos_right (Real.log_pos one_lt_two)).mpr
    (entropy_sum_log_le w hpos)

/-- Each base-2 entropy summand is non-negative. -/
theorem entropy_term_nonneg (w : List ℕ) (i : ℕ) (hi : i < w.length) :
    0 ≤ (if 0 < w.getD i 0 then
      -(((w.getD i 0 : ℝ) / (w.sum : ℝ)) *
        Real.logb 2 ((w.getD i 0 : ℝ) / (w.sum : ℝ)))
    else 0) := by
  by_cases h : 0 < w.getD i 0
  · rw [if_pos h]
    have hsumpos : 0 < w.sum := lt_of_lt_of_le h (getD_le_sum w i hi)
    have hT : (0:ℝ) < (w.sum : ℝ) := by exact_mod_cast hsumpos
    have hp0 : (0:ℝ) ≤ (w.getD i 0 : ℝ) / (w.sum : ℝ) := by positivity
    have hp1 : (w.getD i 0 : ℝ) / (w.sum : ℝ) ≤ 1 := by
      rw [div_le_one hT]
      exact_mod_cast getD_le_sum w i hi
    have hlb := Real.logb_nonpos one_lt_two hp0 hp1
    nlinarith
  · rw [if_neg h]

/-- Pulling the negation out of the base-2 entropy sum. -/
theorem entropy_sum_negb (w : List ℕ) :
    (∑ i ∈ Finset.range w.length,
      if 0 < w.getD i 0 then
        -(((w.getD i 0 : ℝ) / (w.sum : ℝ)) *
          Real.logb 2 ((w.getD i 0 : ℝ) / (w.sum : ℝ)))
      else 0)
    = -(∑ i ∈ Finset.range w.length,
      if 0 < w.getD i 0 then
        ((w.getD i 0 : ℝ) / (w.sum : ℝ)) *
          Real.logb 2 ((w.getD i 0 : ℝ) / (w.sum : ℝ))
      else 0) := by
  rw [← Finset.sum_neg_distrib]
  refine Finset.sum_congr rfl fun i _ => ?_
  by_cases h : 0 < w.getD i 0
  · rw [if_pos h, if_pos h]
  · rw [if_neg h, if_neg h, neg_zero]

/-- Closed form of `calculate_normalized_entropy` for a non-empty address
list and a positive total weight. -/
theorem calculate_normalized_entropy_eq (src_ips : List String)
    (src_bytes : List ℕ) (hine : src_ips ≠ []) (hpos : 0 < src_bytes.sum) :
    calculate_normalized_entropy src_ips src_bytes =
      if src_ips.length ≤ 1 then 0
      else if 0 < Real.logb 2 (src_ips.length : ℝ) then
        (∑ i ∈ Finset.range src_bytes.length,
          if 0 < src_bytes.getD i 0 then
            -(((src_bytes.getD i 0 : ℝ) / (src_bytes.sum : ℝ)) *
              Real.logb 2 ((src_bytes.getD i 0 : ℝ) / (src_bytes.sum : ℝ)))
          else 0) / Real.logb 2 (src_ips.length : ℝ)
      else 0 := by
  have hbne : src_bytes ≠ [] := fun h => by simp [h] at hpos
  have hc1 : ¬ ((src_ips.isEmpty || src_bytes.isEmpty) = true) := by
    simp [hine, hbne]
  have hs0 : ¬ (src_bytes.sum = 0) := by omega
  simp only [calculate_normalized_entropy]
  rw [if_neg hc1, if_neg hs0, map_sum_eq_sum_range]

/-- Counterexample to C3: with a duplicated source address the code
normalizes by the list length (2), not by the number of distinct entries
(1); the claim demands result `0.0` for one distinct entry, but the code
returns `1`. -/
theorem entropy_distinct_normalization_counterexample :
    (["1.2.3.4", "1.2.3.4"].dedup).length = 1 ∧
    calculate_normalized_entropy ["1.2.3.4", "1.2.3.4"] [1, 1] = 1 ∧
    calculate_normalized_entropy ["1.2.3.4", "1.2.3.4"] [1, 1] ≠ 0 ∧
    calculate_normalized_entropy ["1.2.3.4", "1.2.3.4"] [1, 1] ≠
      claimEntropyFormula (["1.2.3.4", "1.2.3.4"].dedup).length [1, 1] := by
  have h1 : calculate_normalized_entropy ["1.2.3.4", "1.2.3.4"] [1, 1] = 1 := by
    unfold calculate_normalized_entropy
    have h2 : Real.logb 2 ((1 : ℝ) / 2) = -1 := by
      rw [one_div, Real.logb_inv, Real.logb_self_eq_one one_lt_two]
    norm_num [h2, Real.logb_self_eq_one one_lt_two]
  have hd : (["1.2.3.4", "1.2.3.4"].dedup).length = 1 := by decide
  refine ⟨hd, h1, by rw [h1]; norm_num, ?_⟩
  rw [h1, hd]
  simp [claimEntropyFormula]

/-- C3 amended: for equal-length inputs with positive total weight,
`calculate_normalized_entropy` returns `H / log2 n` where
`H = -Σ p_i·log2(p_i)` over the weights `> 0` with `p_i = w_i / total`, and
`n` is the LENGTH of the source list (duplicates counted, zero-weight
entries counted; result `0.0` when `n ≤ 1`); the result lies in `[0, 1]`. -/
theorem entropy_formula_length_normalized (src_ips : List String)
    (src_bytes : List ℕ) (hlen : src_ips.length = src_bytes.length)
    (hpos : 0 < src_bytes.sum) :
    calculate_normalized_entropy src_ips src_bytes =
      claimEntropyFormula src_ips.length src_bytes ∧
    0 ≤ calculate_normalized_entropy src_ips src_bytes ∧
    calculate_normalized_entropy src_ips src_bytes ≤ 1 := by
  have hbne : src_bytes ≠ [] := fun h => by simp [h] at hpos
  have hine : src_ips ≠ [] := by
    intro h
    rw [h] at hlen
    simp only [List.length_nil] at hlen
    exact hbne (List.length_eq_zero.mp hlen.symm)
  have hE := calculate_normalized_entropy_eq src_ips src_bytes hine hpos
  by_cases hn : src_ips.length ≤ 1
  · rw [hE, if_pos hn]
    unfold claimEntropyFormula
    rw [if_pos hn]
    norm_num
  · have h1n : (1:ℝ) < (src_ips.length : ℝ) := by
      have hgt : 1 < src_ips.length := by omega
      exact_mod_cast hgt
    have hlb : 0 < Real.logb 2 (src_ips.length : ℝ) :=
      Real.logb_pos one_lt_two h1n
    have hEnn : 0 ≤ (∑ i ∈ Finset.range src_bytes.length,
        if 0 < src_bytes.getD i 0 then
          -(((src_bytes.getD i 0 : ℝ) / (src_bytes.sum : ℝ)) *
            Real.logb 2 ((src_bytes.getD i 0 : ℝ) / (src_bytes.sum : ℝ)))
        else 0) :=
      Finset.sum_nonneg fun i hi =>
        entropy_term_nonneg src_bytes i (Finset.mem_range.mp hi)
    have hEle : (∑ i ∈ Finset.range src_bytes.length,
        if 0 < src_bytes.getD i 0 then
          -(((src_bytes.getD i 0 : ℝ) / (src_bytes.sum : ℝ)) *
            Real.logb 2 ((src_bytes.getD i 0 : ℝ) / (src_bytes.sum : ℝ)))
        else 0) ≤ Real.logb 2 (src_ips.length : ℝ) := by
      rw [hlen]
      exact entropy_logb_le src_bytes hpos
    rw [hE, if_neg hn, if_pos hlb]
    refine ⟨?_, ?_, ?_⟩
    · unfold claimEntropyFormula
      rw [if_neg hn, ← entropy_sum_negb]
    · exact div_nonneg hEnn (le_of_lt hlb)
    · rw [div_le_one hlb]
      exact hEle

/-- Witness for the amended C3 on a concrete skewed distribution. -/
theorem entropy_formula_length_normalized_witness :
    calculate_normalized_entropy ["10.0.0.1", "10.0.0.2"] [950, 50] =
      claimEntropyFormula (["10.0.0.1", "10.0.0.2"].length) [950, 50] ∧
    0 ≤ calculate_normalized_entropy ["10.0.0.1", "10.0.0.2"] [950, 50] ∧
    calculate_normalized_entropy ["10.0.0.1", "10.0.0.2"] [950, 50] ≤ 1 :=
  entropy_formula_length_normalized _ _ rfl (by norm_num)

end AkvoradoDDoS
